import Mathlib

/-!
Verification of the data cleaning pipeline of `utils/io.py` from the
DataViz Streamlit project (functions `get_departement_code`,
`_strip_accents_upper`, the compiled pattern `BANNED_REGEX`, and
`load_and_clean_data`).

The embedding works over exact rationals (pandas numeric columns hold
floating point numbers, but every claim here concerns comparisons and
ratios that the cleaning code establishes by explicit filters, so the
field type does not matter for the claims); dates are abstracted as
integers since only null-ness and equality of parsed dates matter to the
claims (the `ANNEE`/`TRIMESTRE` calendar projections of the parsed date
are not mentioned by any claim and are omitted).

A successful `pd.read_csv` is modelled as a `RawCsv`: presence flags for
the six expected source columns (after the upper-casing and renaming of
`load_and_clean_data`, which are total and cannot fail) plus the parsed
rows, where a missing cell (`NaN`) is `none`.  The Python function
returns `None` after catching an exception; accessing a missing
geographic-code, date or label column raises `KeyError` (at
`df['CODGEO'].astype(str)`, `pd.to_datetime(df['DATE_ARRETE'])` and
`df.dropna(subset=[...])` respectively), while a missing count column is
handled by the explicit `else: df[c] = 0` branch.  The result type is
therefore `Option (List Row)` with `none` as the failure sentinel.
-/

namespace DataViz

/-- Python string slicing `s[:n]` (on the character sequence). -/
def pyTake (s : String) (n : ℕ) : String :=
  String.mk (s.toList.take n)

/-- Python `s.startswith(t)` (on the character sequence). -/
def pyStartsWith (s t : String) : Bool :=
  s.toList.take t.toList.length == t.toList

/-- `get_departement_code` of `utils/io.py`: both branches of the
Corsican special case return `codgeo[:2]`. The Python function first
applies `str(...)`; the embedding takes the already-stringified code. -/
def get_departement_code (codgeo : String) : String :=
  if pyStartsWith codgeo "2A" || pyStartsWith codgeo "2B" then
    pyTake codgeo 2
  else
    pyTake codgeo 2

/-- Characters stripped by Python's `str.strip()` (the whitespace
characters that occur in CSV label fields). -/
def isPyWhitespace (c : Char) : Bool :=
  c == ' ' || c == '\t' || c == '\n' || c == '\r' || c.val == 11 || c.val == 12

def trimEnds (cs : List Char) : List Char :=
  ((cs.dropWhile isPyWhitespace).reverse.dropWhile isPyWhitespace).reverse

/-- Python `str.strip()`. -/
def pyStrip (s : String) : String :=
  String.mk (trimEnds s.toList)

/-- Combining grave accent U+0300. -/
def cGrave : Char := Char.ofNat 0x300
/-- Combining acute accent U+0301. -/
def cAcute : Char := Char.ofNat 0x301
/-- Combining circumflex U+0302. -/
def cCirc : Char := Char.ofNat 0x302
/-- Combining diaeresis U+0308. -/
def cDiaer : Char := Char.ofNat 0x308
/-- Combining cedilla U+0327. -/
def cCedil : Char := Char.ofNat 0x327

/-- Canonical (NFD) decomposition of one character, as performed by
`unicodedata.normalize("NFD", ...)`, tabulated for the accented Latin
letters that occur in French municipality labels; characters without a
canonical decomposition map to themselves. -/
def nfdChar (c : Char) : List Char :=
  match c with
  | 'à' => ['a', cGrave] | 'â' => ['a', cCirc] | 'ä' => ['a', cDiaer]
  | 'á' => ['a', cAcute]
  | 'é' => ['e', cAcute] | 'è' => ['e', cGrave] | 'ê' => ['e', cCirc]
  | 'ë' => ['e', cDiaer]
  | 'î' => ['i', cCirc] | 'ï' => ['i', cDiaer] | 'í' => ['i', cAcute]
  | 'ì' => ['i', cGrave]
  | 'ô' => ['o', cCirc] | 'ö' => ['o', cDiaer] | 'ó' => ['o', cAcute]
  | 'ò' => ['o', cGrave]
  | 'û' => ['u', cCirc] | 'ü' => ['u', cDiaer] | 'ù' => ['u', cGrave]
  | 'ú' => ['u', cAcute]
  | 'ç' => ['c', cCedil] | 'ÿ' => ['y', cDiaer]
  | 'À' => ['A', cGrave] | 'Â' => ['A', cCirc] | 'Ä' => ['A', cDiaer]
  | 'É' => ['E', cAcute] | 'È' => ['E', cGrave] | 'Ê' => ['E', cCirc]
  | 'Ë' => ['E', cDiaer]
  | 'Î' => ['I', cCirc] | 'Ï' => ['I', cDiaer]
  | 'Ô' => ['O', cCirc] | 'Ö' => ['O', cDiaer]
  | 'Û' => ['U', cCirc] | 'Ü' => ['U', cDiaer] | 'Ù' => ['U', cGrave]
  | 'Ç' => ['C', cCedil]
  | _ => [c]

def nfdList : List Char → List Char
  | [] => []
  | c :: cs => nfdChar c ++ nfdList cs

/-- `unicodedata.category(ch) == "Mn"` for the characters produced by
`nfdChar`: the combining diacritical marks block U+0300..U+036F. -/
def isMn (c : Char) : Bool :=
  0x300 ≤ c.val && c.val ≤ 0x36F

/-- Python `str.upper()` on the characters remaining after the
combining marks are removed (ASCII letters plus the undecomposable
French ligatures). -/
def pyUpper (c : Char) : Char :=
  if c == 'œ' then 'Œ' else if c == 'æ' then 'Æ' else c.toUpper

/-- `_strip_accents_upper` of `utils/io.py`: strip, NFD-normalize, drop
the combining marks (category Mn), uppercase.  (`s is None` cannot occur
here: the pipeline only applies it after `astype(str)`.) -/
def _strip_accents_upper (s : String) : String :=
  String.mk (((nfdList (pyStrip s).toList).filter (fun c => !isMn c)).map pyUpper)

/-- A separator consumed by the `[\s\-]*` gaps of `BANNED_REGEX` (the
whitespace subset of `\s` that occurs in label fields, plus a hyphen). -/
def isSepChar (c : Char) : Bool :=
  isPyWhitespace c || c == '-'

/-- Consume the literal token `t` off the front of `cs`. -/
def eatTok : List Char → List Char → Option (List Char)
  | [], cs => some cs
  | _ :: _, [] => none
  | t :: ts, c :: cs => if c == t then eatTok ts cs else none

def dropSeps (cs : List Char) : List Char :=
  cs.dropWhile isSepChar

def endsIn (cs : List Char) (ends : List String) : Bool :=
  ends.any (fun e => cs == e.toList)

/-- Full match of `TOK` followed by one of the optional-suffix endings. -/
def matchTok1 (t : String) (ends : List String) (cs : List Char) : Bool :=
  match eatTok t.toList cs with
  | some r => endsIn r ends
  | none => false

/-- Full match of `TOK1 [\s\-]* TOK2` followed by one of the endings.
Since both tokens start and end with letters, the greedy `dropSeps`
between them is equivalent to the regex's `[\s\-]*`. -/
def matchTok2 (t1 t2 : String) (ends : List String) (cs : List Char) : Bool :=
  match eatTok t1.toList cs with
  | some r =>
    match eatTok t2.toList (dropSeps r) with
    | some r2 => endsIn r2 ends
    | none => false
  | none => false

/-- `BANNED_REGEX.fullmatch` of `utils/io.py`: the anchored alternation
`FORAIN(S)? | NON[\s\-]*IDENTIFI(E|EE)(S)? | NON[\s\-]*DEFINI(E)?(S)? |
NON[\s\-]*RENSEIGNE(E)?(S)? | INCONNU(S)? | SANS[\s\-]*LIBELLE(S)? |
SANS[\s\-]*OBJET | PARIS[\s\-]*ND | ND`, applied to the already
normalized (accent-stripped, upper-cased) label. -/
def bannedFullmatch (s : String) : Bool :=
  let cs := s.toList
  matchTok1 "FORAIN" ["", "S"] cs ||
  matchTok2 "NON" "IDENTIFI" ["E", "EE", "ES", "EES"] cs ||
  matchTok2 "NON" "DEFINI" ["", "E", "S", "ES"] cs ||
  matchTok2 "NON" "RENSEIGNE" ["", "E", "S", "ES"] cs ||
  matchTok1 "INCONNU" ["", "S"] cs ||
  matchTok2 "SANS" "LIBELLE" ["", "S"] cs ||
  matchTok2 "SANS" "OBJET" [""] cs ||
  matchTok2 "PARIS" "ND" [""] cs ||
  matchTok1 "ND" [""] cs

/-- The `mask_valid` predicate of `load_and_clean_data` applied to one
normalized label: non-empty, not a literal placeholder token, and not a
full match of `BANNED_REGEX`. -/
def label_mask_valid (norm : String) : Bool :=
  decide (0 < norm.length) &&
  !(norm == "NA" || norm == "NAN" || norm == "NONE") &&
  !(bannedFullmatch norm)

/-- A row of the working table after the parsing stage.  `total`,
`part` and `dep` hold the derived columns `NB_RECHARGEABLES_TOTAL`,
`PART_ELECTRIQUE` and `DEPARTEMENT` once the corresponding pipeline
stage has filled them. -/
structure Row where
  codgeo : String
  libgeo : String
  date : Int
  nb_el : ℚ
  nb_gaz : ℚ
  nb_vp : ℚ
  total : ℚ
  part : ℚ
  dep : String
deriving DecidableEq

/-- Step 2 of `load_and_clean_data`: `NB_RECHARGEABLES_TOTAL` is the sum
of the two rechargeable counts, and `PART_ELECTRIQUE` is
`np.where(NB_VP > 0, NB_RECHARGEABLES_TOTAL / NB_VP * 100, 0)`. -/
def derive_indicators (r : Row) : Row :=
  let total := r.nb_el + r.nb_gaz
  { r with
    total := total
    part := if 0 < r.nb_vp then total / r.nb_vp * 100 else 0 }

/-- Step 1: `df = df[df['NB_VP'] > 0]`. -/
def vp_filter (rs : List Row) : List Row :=
  rs.filter (fun r => decide (0 < r.nb_vp))

/-- Step 3: `df = df[df['NB_RECHARGEABLES_TOTAL'] <= df['NB_VP']]`. -/
def coherence_filter (rs : List Row) : List Row :=
  rs.filter (fun r => decide (r.total ≤ r.nb_vp))

/-- Step 4: `df = df[(df['PART_ELECTRIQUE'] >= 0) & (df['PART_ELECTRIQUE'] <= 100)]`. -/
def rate_filter (rs : List Row) : List Row :=
  rs.filter (fun r => decide (0 ≤ r.part) && decide (r.part ≤ 100))

/-- The virtual index used by `Series.quantile(0.995)` with the default
linear interpolation: `0.995 * (n - 1)` for `n` surviving values. -/
def quantileH (n : ℕ) : ℚ :=
  995 / 1000 * ((n : ℚ) - 1)

/-- The integral part of the virtual index. -/
def quantileJ (n : ℕ) : ℕ :=
  (Int.floor (quantileH n)).toNat

/-- `Series.quantile(0.995)` with the default linear interpolation:
with the values sorted ascending as `s` of length `n` and virtual index
`h = 0.995 * (n - 1)`, the result interpolates between `s[floor h]` and
`s[floor h + 1]` with fraction `h - floor h`.  Only called on non-empty
data (the source guards the call with `len(df) > 0`). -/
def quantile995 (xs : List ℚ) : ℚ :=
  let s := List.insertionSort (· ≤ ·) xs
  let j : ℕ := quantileJ s.length
  let g : ℚ := quantileH s.length - (j : ℚ)
  let a := s.getD j 0
  let b := s.getD (j + 1) a
  a + g * (b - a)

/-- Step 5: `if len(df) > 0: p995 = df['PART_ELECTRIQUE'].quantile(0.995);
df = df[df['PART_ELECTRIQUE'] <= p995]`. -/
def outlier_trim (rs : List Row) : List Row :=
  if 0 < rs.length then
    let p995 := quantile995 (rs.map (fun r => r.part))
    rs.filter (fun r => decide (r.part ≤ p995))
  else
    rs

/-- `df['DEPARTEMENT'] = df['CODGEO'].apply(get_departement_code)`. -/
def set_departement (rs : List Row) : List Row :=
  rs.map (fun r => { r with dep := get_departement_code r.codgeo })

/-- `df['LIBGEO'] = df['LIBGEO'].astype(str).str.strip()` (`astype(str)`
is the identity on a string column). -/
def trim_libgeo (rs : List Row) : List Row :=
  rs.map (fun r => { r with libgeo := pyStrip r.libgeo })

/-- The final exclusion `df = df[mask_valid]`, with `LIBGEO_NORM`
computed from the (already trimmed) label by `_strip_accents_upper`;
the helper column is dropped again, so it is not part of `Row`. -/
def label_filter (rs : List Row) : List Row :=
  rs.filter (fun r => label_mask_valid ( _strip_accents_upper r.libgeo))

/-- The cleaning pipeline of `load_and_clean_data` after the read and
parse stages, in source order. -/
def clean_rows (rs : List Row) : List Row :=
  label_filter (trim_libgeo (set_departement
    (outlier_trim (rate_filter (coherence_filter
      ((vp_filter rs).map derive_indicators))))))

/-- The cleaning pipeline with the percentile-based outlier trim (step 5)
left out: all the remaining stages of `clean_rows`, in source order.
Used to isolate which stage breaks idempotence. -/
def clean_rows_no_trim (rs : List Row) : List Row :=
  label_filter (trim_libgeo (set_departement
    (rate_filter (coherence_filter
      ((vp_filter rs).map derive_indicators)))))

/-- One line of the parsed CSV: `codgeo` is a string column
(`dtype=str` plus `astype(str)` turn even a missing cell into a
string), the label is `none` when the cell is missing (`NaN`, dropped
by `dropna`), the date is the result of `pd.to_datetime(...,
errors='coerce')` (`none` = `NaT`), and the counts are the results of
`pd.to_numeric(..., errors='coerce')` before `fillna(0)`. -/
structure RawRow where
  codgeo : String
  libgeo : Option String
  date_arrete : Option Int
  nb_el : Option ℚ
  nb_gaz : Option ℚ
  nb_vp : Option ℚ
deriving DecidableEq

/-- A successfully read CSV: which of the six expected columns are
present after header normalization and renaming, plus the rows. -/
structure RawCsv where
  hasCodgeo : Bool
  hasLibgeo : Bool
  hasDate : Bool
  hasEl : Bool
  hasGaz : Bool
  hasVp : Bool
  rows : List RawRow
deriving DecidableEq

/-- Row-level parsing: `dropna(subset=['DATE_ARRETE', 'LIBGEO'])`
discards the row when either parse failed, and each count column is
`to_numeric(...).fillna(0)` when present and the constant `0` when the
column is absent (the `else: df[c] = 0` branch). -/
def parse_row (hasEl hasGaz hasVp : Bool) (r : RawRow) : Option Row :=
  match r.date_arrete, r.libgeo with
  | some d, some l =>
    some { codgeo := r.codgeo, libgeo := l, date := d
           nb_el := if hasEl then r.nb_el.getD 0 else 0
           nb_gaz := if hasGaz then r.nb_gaz.getD 0 else 0
           nb_vp := if hasVp then r.nb_vp.getD 0 else 0
           total := 0, part := 0, dep := "" }
  | _, _ => none

/-- `load_and_clean_data` of `utils/io.py` on a successfully read CSV:
a missing geographic-code, date or label column raises `KeyError`
(caught by the enclosing `try`, which reports the error and returns
`None`, modelled as `none`); otherwise the parse and cleaning stages
run and the cleaned table is returned. -/
def load_and_clean_data (csv : RawCsv) : Option (List Row) :=
  if csv.hasCodgeo && csv.hasDate && csv.hasLibgeo then
    some (clean_rows (csv.rows.filterMap (parse_row csv.hasEl csv.hasGaz csv.hasVp)))
  else
    none

/-- Modelled from the spec: the department derivation as the spec words
it, "first two characters of the geographic code, left-zero-padded to 5
characters before slicing if the raw code is numeric-like".  Stated for
refinement comparison with `get_departement_code`. -/
def spec_departement_code (s : String) : String :=
  if !s.toList.isEmpty && s.toList.all (fun c => c.isDigit) then
    pyTake (String.mk (List.replicate (5 - s.toList.length) '0') ++ s) 2
  else
    pyTake s 2

/-! Concrete sample inputs used by witnesses and counterexamples. -/

/-- A fully populated raw CSV line with the given code, label, electric
count and total count (hybrid count 0, date parsed to the epoch). -/
def rawSample (codgeo l : String) (el vp : ℚ) : RawRow :=
  { codgeo := codgeo, libgeo := some l, date_arrete := some 0,
    nb_el := some el, nb_gaz := some 0, nb_vp := some vp }

/-- A CSV in which all six expected columns are present. -/
def csvAll (rows : List RawRow) : RawCsv :=
  { hasCodgeo := true, hasLibgeo := true, hasDate := true,
    hasEl := true, hasGaz := true, hasVp := true, rows := rows }

/-- A working-table row before derivation (derived fields zeroed). -/
def mkRow (codgeo l : String) (el vp : ℚ) : Row :=
  { codgeo := codgeo, libgeo := l, date := 0, nb_el := el, nb_gaz := 0,
    nb_vp := vp, total := 0, part := 0, dep := "" }

/-- Paris, 10 electric out of 1000 vehicles: survives every filter. -/
def parisRaw : Row := mkRow "75056" "Paris" 10 1000

/-- `parisRaw` after the indicator derivations (adoption rate 1%). -/
def parisDerived : Row := { parisRaw with total := 10, part := 1 }

/-- `parisRaw` as it appears in the cleaned table. -/
def goodCleanRow : Row := { parisDerived with dep := "75" }

/-- A one-line CSV whose single row survives cleaning. -/
def csvGood : RawCsv := csvAll [rawSample "75056" "Paris" 10 1000]

/-- A CSV whose single row is dropped by the `NB_VP > 0` filter. -/
def csvDoomed : RawCsv := csvAll [rawSample "75056" "Paris" 0 0]

/-- A CSV with the total-vehicle count column missing. -/
def csvMissingVp : RawCsv :=
  { csvAll [rawSample "75056" "Paris" 10 1000] with hasVp := false }

/-- A CSV with a header but no data lines. -/
def headerOnlyCsv : RawCsv := csvAll []

/-- A 4-character numeric-like geographic code (an unpadded Ain commune
code), retained by cleaning. -/
def c4Raw : Row := mkRow "1001" "Amberieu" 1 100

/-- `c4Raw` after derivation (adoption rate 1%). -/
def c4Derived : Row := { c4Raw with total := 1, part := 1 }

/-- `c4Raw` as it appears in the cleaned table. -/
def c4Row : Row := { c4Derived with dep := "10" }

/-- The CSV holding the single unpadded-code line. -/
def csvC4 : RawCsv := csvAll [rawSample "1001" "Amberieu" 1 100]

/-- Three Corsican rows with adoption rates 0%, 99% and 100%: the input
on which the outlier trim drops a row again on a second pipeline run. -/
def aj : Row := mkRow "2A004" "Ajaccio" 0 100
def ba : Row := mkRow "2B033" "Bastia" 99 100
def ca : Row := mkRow "2B050" "Calvi" 100 100
def ajD : Row := { aj with total := 0, part := 0 }
def baD : Row := { ba with total := 99, part := 99 }
def caD : Row := { ca with total := 100, part := 100 }
def ajF : Row := { ajD with dep := "2A" }
def baF : Row := { baD with dep := "2B" }
def rowsC2 : List Row := [aj, ba, ca]

/-! Helper lemmas about the pipeline stages. -/

theorem dropWhile_head_false {α : Type} {p : α → Bool} :
    ∀ {l : List α} {a : α} {t : List α},
      List.dropWhile p l = a :: t → p a = false := by
  intro l
  induction l with
  | nil => intro a t h; simp [List.dropWhile] at h
  | cons b u ih =>
    intro a t h
    rw [List.dropWhile_cons] at h
    by_cases hb : p b = true
    · rw [if_pos hb] at h; exact ih h
    · rw [if_neg hb] at h
      cases h
      simpa using hb

theorem dropWhile_rdropWhile_dropWhile {α : Type} (p : α → Bool) (cs : List α) :
    List.dropWhile p (List.rdropWhile p (List.dropWhile p cs)) =
      List.rdropWhile p (List.dropWhile p cs) := by
  rcases hw : List.rdropWhile p (List.dropWhile p cs) with _ | ⟨a, u⟩
  · rfl
  · have hpre : a :: u <+: List.dropWhile p cs := hw ▸ List.rdropWhile_prefix p _
    obtain ⟨t, ht⟩ := hpre
    have hpa : p a = false := dropWhile_head_false (l := cs) ht.symm
    rw [List.dropWhile_cons, if_neg (by rw [hpa]; exact Bool.false_ne_true)]

theorem trimEnds_eq (cs : List Char) :
    trimEnds cs =
      List.rdropWhile isPyWhitespace (List.dropWhile isPyWhitespace cs) := rfl

theorem trimEnds_idem (cs : List Char) :
    trimEnds (trimEnds cs) = trimEnds cs := by
  rw [trimEnds_eq cs, trimEnds_eq, dropWhile_rdropWhile_dropWhile,
    List.rdropWhile_idempotent]

theorem pyStrip_idem (s : String) : pyStrip (pyStrip s) = pyStrip s :=
  congrArg String.mk (trimEnds_idem s.toList)

theorem get_departement_code_take (s : String) :
    get_departement_code s = pyTake s 2 := by
  unfold get_departement_code
  split <;> rfl

theorem mem_of_mem_outlier_trim {rs : List Row} {r : Row}
    (h : r ∈ outlier_trim rs) : r ∈ rs := by
  unfold outlier_trim at h
  split at h
  · exact List.mem_of_mem_filter h
  · exact h

theorem mem_clean_rows_core {rs : List Row} {r : Row} (h : r ∈ clean_rows rs) :
    ∃ a ∈ outlier_trim (rate_filter (coherence_filter
        ((vp_filter rs).map derive_indicators))),
      r = { a with dep := get_departement_code a.codgeo,
                   libgeo := pyStrip a.libgeo } ∧
      label_mask_valid ( _strip_accents_upper r.libgeo) = true := by
  unfold clean_rows label_filter trim_libgeo set_departement at h
  rw [List.mem_filter] at h
  obtain ⟨hmem, hvalid⟩ := h
  rw [List.mem_map] at hmem
  obtain ⟨b, hb, rfl⟩ := hmem
  rw [List.mem_map] at hb
  obtain ⟨a, ha, rfl⟩ := hb
  exact ⟨a, ha, rfl, hvalid⟩

theorem mem_rate_filter {rs : List Row} {r : Row} (h : r ∈ rate_filter rs) :
    r ∈ rs ∧ 0 ≤ r.part ∧ r.part ≤ 100 := by
  unfold rate_filter at h
  rw [List.mem_filter, Bool.and_eq_true, decide_eq_true_eq, decide_eq_true_eq] at h
  exact ⟨h.1, h.2.1, h.2.2⟩

theorem mem_coherence_filter {rs : List Row} {r : Row}
    (h : r ∈ coherence_filter rs) : r ∈ rs ∧ r.total ≤ r.nb_vp := by
  unfold coherence_filter at h
  rw [List.mem_filter, decide_eq_true_eq] at h
  exact h

theorem mem_derived {rs : List Row} {r : Row}
    (h : r ∈ (vp_filter rs).map derive_indicators) :
    0 < r.nb_vp ∧ r.total = r.nb_el + r.nb_gaz ∧
      r.part = (r.nb_el + r.nb_gaz) / r.nb_vp * 100 := by
  rw [List.mem_map] at h
  obtain ⟨a, ha, rfl⟩ := h
  unfold vp_filter at ha
  rw [List.mem_filter, decide_eq_true_eq] at ha
  refine ⟨?_, ?_, ?_⟩ <;> simp [derive_indicators, ha.2]

/-- The full bundle of facts available for every row of `clean_rows`. -/
theorem mem_clean_rows {rs : List Row} {r : Row} (h : r ∈ clean_rows rs) :
    0 < r.nb_vp ∧ r.total = r.nb_el + r.nb_gaz ∧
      r.part = (r.nb_el + r.nb_gaz) / r.nb_vp * 100 ∧
      r.total ≤ r.nb_vp ∧ 0 ≤ r.part ∧ r.part ≤ 100 ∧
      r.dep = get_departement_code r.codgeo ∧
      pyStrip r.libgeo = r.libgeo ∧
      label_mask_valid ( _strip_accents_upper r.libgeo) = true := by
  obtain ⟨a, ha, rfl, hvalid⟩ := mem_clean_rows_core h
  have h1 := mem_rate_filter (mem_of_mem_outlier_trim ha)
  have h2 := mem_coherence_filter h1.1
  have h3 := mem_derived h2.1
  refine ⟨h3.1, h3.2.1, h3.2.2, h2.2, h1.2.1, h1.2.2, rfl, ?_, hvalid⟩
  exact pyStrip_idem a.libgeo

/-- The same fact bundle for every row of the pipeline without the
outlier trim (the trim only removes rows, so the remaining stages
establish the identical facts). -/
theorem mem_clean_rows_no_trim {rs : List Row} {r : Row}
    (h : r ∈ clean_rows_no_trim rs) :
    0 < r.nb_vp ∧ r.total = r.nb_el + r.nb_gaz ∧
      r.part = (r.nb_el + r.nb_gaz) / r.nb_vp * 100 ∧
      r.total ≤ r.nb_vp ∧ 0 ≤ r.part ∧ r.part ≤ 100 ∧
      r.dep = get_departement_code r.codgeo ∧
      pyStrip r.libgeo = r.libgeo ∧
      label_mask_valid ( _strip_accents_upper r.libgeo) = true := by
  unfold clean_rows_no_trim label_filter trim_libgeo set_departement at h
  rw [List.mem_filter] at h
  obtain ⟨hmem, hvalid⟩ := h
  rw [List.mem_map] at hmem
  obtain ⟨b, hb, rfl⟩ := hmem
  rw [List.mem_map] at hb
  obtain ⟨a, ha, rfl⟩ := hb
  have h1 := mem_rate_filter ha
  have h2 := mem_coherence_filter h1.1
  have h3 := mem_derived h2.1
  refine ⟨h3.1, h3.2.1, h3.2.2, h2.2, h1.2.1, h1.2.2, rfl, ?_, hvalid⟩
  exact pyStrip_idem a.libgeo

theorem load_eq_some {csv : RawCsv} {out : List Row}
    (h : load_and_clean_data csv = some out) :
    out = clean_rows (csv.rows.filterMap (parse_row csv.hasEl csv.hasGaz csv.hasVp)) := by
  unfold load_and_clean_data at h
  split at h
  · exact (Option.some_injective _ h).symm
  · exact absurd h (by simp)

/-! Concrete evaluation of the pipeline.  Rational arithmetic is
evaluated by `norm_num`; the string, list and boolean stages reduce by
`decide`. -/

theorem quantile995_single (x : ℚ) : quantile995 [x] = x := by
  simp only [quantile995, quantileJ, quantileH, List.insertionSort,
    List.orderedInsert]
  norm_num

theorem outlier_trim_single (r : Row) : outlier_trim [r] = [r] := by
  simp [outlier_trim, quantile995_single]

theorem clean_rows_single (r r' : Row)
    (h1 : 0 < r.nb_vp) (h2 : derive_indicators r = r')
    (h3 : r'.total ≤ r'.nb_vp) (h4 : 0 ≤ r'.part) (h5 : r'.part ≤ 100)
    (h6 : label_mask_valid ( _strip_accents_upper (pyStrip r'.libgeo)) = true) :
    clean_rows [r] =
      [{ r' with dep := get_departement_code r'.codgeo,
                 libgeo := pyStrip r'.libgeo }] := by
  unfold clean_rows
  have e1 : vp_filter [r] = [r] := by simp [vp_filter, h1]
  have e2 : [r].map derive_indicators = [r'] := by simp [h2]
  have e3 : coherence_filter [r'] = [r'] := by simp [coherence_filter, h3]
  have e4 : rate_filter [r'] = [r'] := by simp [rate_filter, h4, h5]
  rw [e1, e2, e3, e4, outlier_trim_single]
  simp [set_departement, trim_libgeo, label_filter, h6]

theorem load_csvGood : load_and_clean_data csvGood = some [goodCleanRow] := by
  have hp : csvGood.rows.filterMap
      (parse_row csvGood.hasEl csvGood.hasGaz csvGood.hasVp) = [parisRaw] := by
    decide
  have h2 : derive_indicators parisRaw = parisDerived := by
    simp [derive_indicators, parisRaw, parisDerived, mkRow, Row.mk.injEq]
    norm_num
  have hc : clean_rows [parisRaw] = [goodCleanRow] := by
    rw [clean_rows_single parisRaw parisDerived (by decide) h2 (by decide)
      (by decide) (by decide) (by decide)]
    decide
  show some (clean_rows (csvGood.rows.filterMap
      (parse_row csvGood.hasEl csvGood.hasGaz csvGood.hasVp))) = _
  rw [hp, hc]

theorem load_csvC4 : load_and_clean_data csvC4 = some [c4Row] := by
  have hp : csvC4.rows.filterMap
      (parse_row csvC4.hasEl csvC4.hasGaz csvC4.hasVp) = [c4Raw] := by
    decide
  have h2 : derive_indicators c4Raw = c4Derived := by
    simp [derive_indicators, c4Raw, c4Derived, mkRow, Row.mk.injEq]
  have hc : clean_rows [c4Raw] = [c4Row] := by
    rw [clean_rows_single c4Raw c4Derived (by decide) h2 (by decide)
      (by decide) (by decide) (by decide)]
    decide
  show some (clean_rows (csvC4.rows.filterMap
      (parse_row csvC4.hasEl csvC4.hasGaz csvC4.hasVp))) = _
  rw [hp, hc]

theorem quantile995_three : quantile995 [(0:ℚ), 99, 100] = 9999 / 100 := by
  simp only [quantile995, quantileJ, quantileH, List.insertionSort,
    List.orderedInsert]
  norm_num

theorem quantile995_two : quantile995 [(0:ℚ), 99] = 19701 / 200 := by
  simp only [quantile995, quantileJ, quantileH, List.insertionSort,
    List.orderedInsert]
  norm_num

theorem clean_rowsC2 : clean_rows rowsC2 = [ajF, baF] := by
  unfold clean_rows rowsC2
  have e1 : vp_filter [aj, ba, ca] = [aj, ba, ca] := by decide
  have hA : derive_indicators aj = ajD := by
    simp [derive_indicators, aj, ajD, mkRow, Row.mk.injEq]
  have hB : derive_indicators ba = baD := by
    simp [derive_indicators, ba, baD, mkRow, Row.mk.injEq]
  have hC : derive_indicators ca = caD := by
    simp [derive_indicators, ca, caD, mkRow, Row.mk.injEq]
  have e2 : [aj, ba, ca].map derive_indicators = [ajD, baD, caD] := by
    simp [hA, hB, hC]
  have e3 : coherence_filter [ajD, baD, caD] = [ajD, baD, caD] := by decide
  have e4 : rate_filter [ajD, baD, caD] = [ajD, baD, caD] := by decide
  have e5 : outlier_trim [ajD, baD, caD] = [ajD, baD] := by
    have hm : [ajD, baD, caD].map (fun r => r.part) = [(0:ℚ), 99, 100] := by
      decide
    simp only [outlier_trim, List.length_cons, List.length_nil, hm,
      quantile995_three]
    norm_num [ajD, baD, caD, aj, ba, ca, mkRow, List.filter]
  have e6 : label_filter (trim_libgeo (set_departement [ajD, baD])) =
      [ajF, baF] := by decide
  rw [e1, e2, e3, e4, e5, e6]

theorem clean_rowsC2_again : clean_rows [ajF, baF] = [ajF] := by
  unfold clean_rows
  have e1 : vp_filter [ajF, baF] = [ajF, baF] := by decide
  have hA : derive_indicators ajF = ajF := by
    simp [derive_indicators, ajF, ajD, aj, mkRow, Row.mk.injEq]
  have hB : derive_indicators baF = baF := by
    simp [derive_indicators, baF, baD, ba, mkRow, Row.mk.injEq]
  have e2 : [ajF, baF].map derive_indicators = [ajF, baF] := by simp [hA, hB]
  have e3 : coherence_filter [ajF, baF] = [ajF, baF] := by decide
  have e4 : rate_filter [ajF, baF] = [ajF, baF] := by decide
  have e5 : outlier_trim [ajF, baF] = [ajF] := by
    have hm : [ajF, baF].map (fun r => r.part) = [(0:ℚ), 99] := by decide
    simp only [outlier_trim, List.length_cons, List.length_nil, hm,
      quantile995_two]
    norm_num [ajF, baF, ajD, baD, aj, ba, mkRow, List.filter]
  have e6 : label_filter (trim_libgeo (set_departement [ajF])) = [ajF] := by
    decide
  rw [e1, e2, e3, e4, e5, e6]

/-! Bounds on the interpolated quantile, used to show the outlier
trim can never empty a non-empty table. -/

theorem quantileJ_lt (n : ℕ) (hn : 1 ≤ n) : quantileJ n < n := by
  unfold quantileJ quantileH
  have h1 : (1:ℚ) ≤ (n:ℚ) := by exact_mod_cast hn
  have h2 : (995:ℚ)/1000 * ((n:ℚ) - 1) ≤ (n:ℚ) - 1 := by nlinarith
  have h3 : Int.floor ((n:ℚ) - 1) = (n:ℤ) - 1 := by
    rw [show ((n:ℚ) - 1) = (((n:ℤ) - 1 : ℤ) : ℚ) by push_cast; ring,
      Int.floor_intCast]
  have h4 := Int.floor_mono h2
  omega

theorem quantileG_nonneg (n : ℕ) (hn : 1 ≤ n) :
    0 ≤ quantileH n - (quantileJ n : ℚ) := by
  unfold quantileJ quantileH
  have h1 : (1:ℚ) ≤ (n:ℚ) := by exact_mod_cast hn
  have h0 : 0 ≤ (995:ℚ)/1000 * ((n:ℚ) - 1) := by nlinarith
  have hfl0 : 0 ≤ Int.floor ((995:ℚ)/1000 * ((n:ℚ) - 1)) :=
    Int.floor_nonneg.mpr h0
  have h2 : (((Int.floor ((995:ℚ)/1000 * ((n:ℚ) - 1))).toNat : ℕ) : ℚ) =
      ((Int.floor ((995:ℚ)/1000 * ((n:ℚ) - 1)) : ℤ) : ℚ) := by
    exact_mod_cast congrArg (fun z : ℤ => (z : ℚ)) (Int.toNat_of_nonneg hfl0)
  rw [h2]
  have h5 := Int.floor_le ((995:ℚ)/1000 * ((n:ℚ) - 1))
  linarith

theorem head_le_interp (s : List ℚ) (hsorted : List.Sorted (· ≤ ·) s)
    (a : ℚ) (t : List ℚ) (hat : s = a :: t) (j : ℕ) (hj : j < s.length)
    (g : ℚ) (hg : 0 ≤ g) :
    a ≤ s.getD j 0 + g * (s.getD (j + 1) (s.getD j 0) - s.getD j 0) := by
  have hle : ∀ x ∈ s, a ≤ x := by
    intro x hx
    rw [hat] at hx
    rcases List.mem_cons.mp hx with rfl | hx₂
    · exact le_refl x
    · exact List.rel_of_pairwise_cons (hat ▸ hsorted) hx₂
  have ha : a ≤ s.getD j 0 := by
    rw [List.getD_eq_get s 0 hj]
    exact hle _ (List.get_mem s j hj)
  have hab : s.getD j 0 ≤ s.getD (j + 1) (s.getD j 0) := by
    by_cases hj1 : j + 1 < s.length
    · rw [List.getD_eq_get s (s.getD j 0) hj1, List.getD_eq_get s 0 hj]
      exact hsorted.rel_get_of_lt (Fin.mk_lt_mk.mpr (Nat.lt_succ_self j))
    · rw [List.getD_eq_default s _ (Nat.le_of_not_lt hj1)]
  have := mul_nonneg hg (sub_nonneg.mpr hab)
  linarith

theorem quantile995_ge_min (xs : List ℚ) (hne : xs ≠ []) :
    ∃ x ∈ xs, x ≤ quantile995 xs := by
  have hperm := List.perm_insertionSort (· ≤ ·) xs
  have hsorted : List.Sorted (· ≤ ·) (List.insertionSort (· ≤ ·) xs) :=
    List.sorted_insertionSort (· ≤ ·) xs
  have hsne : List.insertionSort (· ≤ ·) xs ≠ [] := by
    intro h0
    exact hne (List.length_eq_zero.mp (by rw [← hperm.length_eq, h0]; rfl))
  obtain ⟨a, t, hat⟩ := List.exists_cons_of_ne_nil hsne
  have hn : 1 ≤ (List.insertionSort (· ≤ ·) xs).length := by
    rw [hat]; exact Nat.succ_le_succ (Nat.zero_le _)
  refine ⟨a, hperm.subset (hat ▸ List.mem_cons_self a t), ?_⟩
  exact head_le_interp _ hsorted a t hat _ (quantileJ_lt _ hn) _
    (quantileG_nonneg _ hn)

theorem outlier_trim_ne_nil (rs : List Row) (hne : rs ≠ []) :
    outlier_trim rs ≠ [] := by
  unfold outlier_trim
  rw [if_pos (List.length_pos.mpr hne)]
  show rs.filter
      (fun r => decide (r.part ≤ quantile995 (rs.map (fun r => r.part)))) ≠ []
  have hxs : rs.map (fun r => r.part) ≠ [] := by
    intro h0; exact hne (List.map_eq_nil_iff.mp h0)
  obtain ⟨x, hx, hle⟩ := quantile995_ge_min _ hxs
  obtain ⟨r, hr, hrx⟩ := List.mem_map.mp hx
  refine List.ne_nil_of_mem (a := r) ?_
  rw [List.mem_filter]
  exact ⟨hr, decide_eq_true (by rw [hrx]; exact hle)⟩

theorem derive_fix (r : Row) (h1 : 0 < r.nb_vp)
    (h2 : r.total = r.nb_el + r.nb_gaz)
    (h3 : r.part = (r.nb_el + r.nb_gaz) / r.nb_vp * 100) :
    derive_indicators r = r := by
  cases r
  simp only at h1 h2 h3
  simp [derive_indicators, Row.mk.injEq, h1, h2, h3]

theorem map_id_of_mem {α : Type} {f : α → α} :
    ∀ {l : List α}, (∀ a ∈ l, f a = a) → l.map f = l := by
  intro l
  induction l with
  | nil => intro _; rfl
  | cons a t ih =>
    intro h
    rw [List.map_cons, h a (List.mem_cons_self a t),
      ih (fun b hb => h b (List.mem_cons_of_mem a hb))]

theorem set_dep_fix (r : Row) (h : r.dep = get_departement_code r.codgeo) :
    { r with dep := get_departement_code r.codgeo } = r := by
  cases r
  simp_all

theorem trim_fix (r : Row) (h : pyStrip r.libgeo = r.libgeo) :
    { r with libgeo := pyStrip r.libgeo } = r := by
  cases r
  simp_all

/-- Any table all of whose rows carry the clean-row fact bundle is a
fixed point of the pipeline without the outlier trim. -/
theorem clean_no_trim_of_fixed (X : List Row)
    (hb : ∀ r ∈ X,
      0 < r.nb_vp ∧ r.total = r.nb_el + r.nb_gaz ∧
      r.part = (r.nb_el + r.nb_gaz) / r.nb_vp * 100 ∧
      r.total ≤ r.nb_vp ∧ 0 ≤ r.part ∧ r.part ≤ 100 ∧
      r.dep = get_departement_code r.codgeo ∧
      pyStrip r.libgeo = r.libgeo ∧
      label_mask_valid ( _strip_accents_upper r.libgeo) = true) :
    clean_rows_no_trim X = X := by
  unfold clean_rows_no_trim
  have e1 : vp_filter X = X := by
    unfold vp_filter
    exact List.filter_eq_self.mpr fun r hr =>
      decide_eq_true (hb r hr).1
  have e2 : X.map derive_indicators = X :=
    map_id_of_mem fun r hr =>
      derive_fix r (hb r hr).1 (hb r hr).2.1 (hb r hr).2.2.1
  have e3 : coherence_filter X = X := by
    unfold coherence_filter
    exact List.filter_eq_self.mpr fun r hr =>
      decide_eq_true (hb r hr).2.2.2.1
  have e4 : rate_filter X = X := by
    unfold rate_filter
    refine List.filter_eq_self.mpr fun r hr => ?_
    rw [Bool.and_eq_true]
    exact ⟨decide_eq_true (hb r hr).2.2.2.2.1,
      decide_eq_true (hb r hr).2.2.2.2.2.1⟩
  have e5 : set_departement X = X := by
    unfold set_departement
    exact map_id_of_mem fun r hr =>
      set_dep_fix r (hb r hr).2.2.2.2.2.2.1
  have e6 : trim_libgeo X = X := by
    unfold trim_libgeo
    exact map_id_of_mem fun r hr =>
      trim_fix r (hb r hr).2.2.2.2.2.2.2.1
  have e7 : label_filter X = X := by
    unfold label_filter
    exact List.filter_eq_self.mpr fun r hr =>
      (hb r hr).2.2.2.2.2.2.2.2
  rw [e1, e2, e3, e4, e5, e6, e7]

theorem clean_no_trim_fix (rs : List Row) :
    clean_rows_no_trim (clean_rows rs) = clean_rows rs :=
  clean_no_trim_of_fixed _ (fun _ hr => mem_clean_rows hr)

theorem clean_no_trim_idem (rs : List Row) :
    clean_rows_no_trim (clean_rows_no_trim rs) = clean_rows_no_trim rs :=
  clean_no_trim_of_fixed _ (fun _ hr => mem_clean_rows_no_trim hr)

/-! The claims. -/

/-- Claim C1: every row of a successfully returned cleaned table has a
positive fleet (`NB_VP > 0`), a rechargeable total bounded by the fleet
(`NB_RECHARGEABLES_TOTAL <= NB_VP`), and an adoption rate within
`[0, 100]`; an input whose rows are all dropped yields the empty table,
not the failure sentinel. -/
theorem cleaned_table_invariants :
    (∀ (csv : RawCsv) (out : List Row), load_and_clean_data csv = some out →
      ∀ r ∈ out,
        0 < r.nb_vp ∧ r.total ≤ r.nb_vp ∧ 0 ≤ r.part ∧ r.part ≤ 100) ∧
    load_and_clean_data csvDoomed = some [] := by
  refine ⟨?_, by decide⟩
  intro csv out h r hr
  rw [load_eq_some h] at hr
  have hm := mem_clean_rows hr
  exact ⟨hm.1, hm.2.2.2.1, hm.2.2.2.2.1, hm.2.2.2.2.2.1⟩

theorem cleaned_table_invariants_witness :
    load_and_clean_data csvGood = some [goodCleanRow] ∧
    (0 < goodCleanRow.nb_vp ∧ goodCleanRow.total ≤ goodCleanRow.nb_vp ∧
      0 ≤ goodCleanRow.part ∧ goodCleanRow.part ≤ 100) :=
  ⟨load_csvGood, cleaned_table_invariants.1 csvGood [goodCleanRow]
    load_csvGood goodCleanRow (by decide)⟩

/-- Claim C2 counterexample: cleaning is not idempotent.  On three rows
with adoption rates 0%, 99% and 100%, the first run trims the 100% row
(the 99.5th percentile of [0, 99, 100] is 99.99), but a second run
trims the 99% row as well (the 99.5th percentile of [0, 99] is 98.505),
so re-running the pipeline on its own output drops a further row. -/
theorem cleaning_not_idempotent :
    clean_rows (clean_rows rowsC2) ≠ clean_rows rowsC2 := by
  rw [clean_rowsC2, clean_rowsC2_again]
  decide

/-- Claim C2 (amended): every cleaning stage except the
99.5th-percentile outlier trim is idempotent — re-running the pipeline
without the trim step on any cleaned output (of the full pipeline)
returns it unchanged, and the no-trim pipeline is a genuine projection
(idempotent on every input); the trim step itself can drop further
rows on a re-run, so the full pipeline is not a projection. -/
theorem cleaning_idempotent_except_trim :
    ∀ rs : List Row,
      clean_rows_no_trim (clean_rows rs) = clean_rows rs ∧
      clean_rows_no_trim (clean_rows_no_trim rs) = clean_rows_no_trim rs :=
  fun rs => ⟨clean_no_trim_fix rs, clean_no_trim_idem rs⟩

/-- Claim C3 counterexample: a missing count column is not fatal.  With
the total-vehicle-count column absent (and all other columns present),
`load_and_clean_data` silently defaults the column to 0 and returns the
empty table instead of the failure sentinel. -/
theorem missing_count_column_not_fatal :
    load_and_clean_data csvMissingVp = some [] ∧
    load_and_clean_data csvMissingVp ≠ none := by
  constructor
  · decide
  · decide

/-- Claim C3 (amended): a missing geographic-code, arrêté-date or
municipality-label column is a fatal load failure (the sentinel is
returned), and these are the only fatal schema conditions: the three
count columns are silently defaulted to 0 when absent, so the load
succeeds exactly when the three key columns are present. -/
theorem key_column_missing_fatal :
    ∀ csv : RawCsv, (load_and_clean_data csv).isSome =
      (csv.hasCodgeo && csv.hasDate && csv.hasLibgeo) := by
  intro csv
  unfold load_and_clean_data
  split <;> simp_all

/-- Claim C4 counterexample: the derived department is not computed
from a left-zero-padded code.  The numeric-like 4-character code
"1001" is retained by cleaning with department "10", whereas slicing
the zero-padded "01001" as the spec words it would give "01". -/
theorem departement_padding_cex :
    load_and_clean_data csvC4 = some [c4Row] ∧
    c4Row.dep ≠ spec_departement_code c4Row.codgeo :=
  ⟨load_csvC4, by decide⟩

/-- Claim C4 (amended): for every retained row the derived department
equals the first two characters of the geographic code exactly as read
(no zero-padding is applied); in particular "75056" yields "75",
"2A004" yields "2A" and "97411" yields "97". -/
theorem departement_first_two_chars :
    (∀ (csv : RawCsv) (out : List Row), load_and_clean_data csv = some out →
      ∀ r ∈ out, r.dep = pyTake r.codgeo 2) ∧
    get_departement_code "75056" = "75" ∧
    get_departement_code "2A004" = "2A" ∧
    get_departement_code "97411" = "97" := by
  refine ⟨?_, by decide, by decide, by decide⟩
  intro csv out h r hr
  rw [load_eq_some h] at hr
  rw [(mem_clean_rows hr).2.2.2.2.2.2.1, get_departement_code_take]

theorem departement_first_two_chars_witness :
    load_and_clean_data csvGood = some [goodCleanRow] ∧
    goodCleanRow.dep = pyTake goodCleanRow.codgeo 2 :=
  ⟨load_csvGood, departement_first_two_chars.1 csvGood [goodCleanRow]
    load_csvGood goodCleanRow (by decide)⟩

/-- Claim C5: no surviving row's label normalizes to a banned
placeholder (so a row labelled "Forains", "ND", "Non identifié",
"NON-IDENTIFIEE" or "Paris ND" is excluded regardless of its numeric
fields), while "Lucciana" and "Paris 1er Arrondissement" pass the label
filter; matching is accent- and case-insensitive and is a full match —
"Landerneau", which contains "nd", does not match. -/
theorem banned_label_exclusion :
    (∀ (csv : RawCsv) (out : List Row), load_and_clean_data csv = some out →
      ∀ r ∈ out, bannedFullmatch ( _strip_accents_upper r.libgeo) = false) ∧
    bannedFullmatch ( _strip_accents_upper "Forains") = true ∧
    bannedFullmatch ( _strip_accents_upper "ND") = true ∧
    bannedFullmatch ( _strip_accents_upper "Non identifié") = true ∧
    bannedFullmatch ( _strip_accents_upper "NON-IDENTIFIEE") = true ∧
    bannedFullmatch ( _strip_accents_upper "Paris ND") = true ∧
    label_mask_valid ( _strip_accents_upper "Lucciana") = true ∧
    label_mask_valid ( _strip_accents_upper "Paris 1er Arrondissement") = true ∧
    bannedFullmatch ( _strip_accents_upper "Landerneau") = false := by
  refine ⟨?_, by decide, by decide, by decide, by decide, by decide,
    by decide, by decide, by decide⟩
  intro csv out h r hr
  rw [load_eq_some h] at hr
  have hv := (mem_clean_rows hr).2.2.2.2.2.2.2.2
  unfold label_mask_valid at hv
  simp only [Bool.and_eq_true, Bool.not_eq_true'] at hv
  exact hv.2

theorem banned_label_exclusion_witness :
    load_and_clean_data csvGood = some [goodCleanRow] ∧
    bannedFullmatch ( _strip_accents_upper goodCleanRow.libgeo) = false :=
  ⟨load_csvGood, banned_label_exclusion.1 csvGood [goodCleanRow]
    load_csvGood goodCleanRow (by decide)⟩

/-- Claim C6: a CSV with only a header row (all columns present, no
data lines) produces the empty cleaned table without any failure, and
the percentile-based outlier trim is a no-op on the empty table (its
`len(df) > 0` guard skips it). -/
theorem empty_input_yields_empty_table :
    load_and_clean_data headerOnlyCsv = some [] ∧
    outlier_trim ([] : List Row) = [] := by
  constructor
  · decide
  · rfl

/-- Claim C7: the loader is deterministic — it is a pure function of
the parsed input, so identical inputs give identical cleaned tables;
the embedding has no source of time, randomness or external state. -/
theorem load_deterministic :
    ∀ csv₁ csv₂ : RawCsv, csv₁ = csv₂ →
      load_and_clean_data csv₁ = load_and_clean_data csv₂ := by
  intro csv₁ csv₂ h
  rw [h]

theorem load_deterministic_witness :
    csvGood = csvGood ∧
    load_and_clean_data csvGood = load_and_clean_data csvGood :=
  ⟨rfl, load_deterministic csvGood csvGood rfl⟩

/-- Claim C8: every row reaching the indicator-derivation step has
already passed the `NB_VP > 0` filter, so the division in
`PART_ELECTRIQUE` is well defined and the zero fallback branch of the
`np.where` guard is never taken: the derived part always equals the
division expression. -/
theorem part_zero_branch_unreachable :
    ∀ rs : List Row, ∀ r ∈ vp_filter rs,
      0 < r.nb_vp ∧
      (derive_indicators r).part = (r.nb_el + r.nb_gaz) / r.nb_vp * 100 := by
  intro rs r hr
  unfold vp_filter at hr
  rw [List.mem_filter, decide_eq_true_eq] at hr
  exact ⟨hr.2, by simp [derive_indicators, hr.2]⟩

theorem part_zero_branch_unreachable_witness :
    parisRaw ∈ vp_filter [parisRaw] ∧
    (0 < parisRaw.nb_vp ∧
      (derive_indicators parisRaw).part =
        (parisRaw.nb_el + parisRaw.nb_gaz) / parisRaw.nb_vp * 100) :=
  ⟨by decide, part_zero_branch_unreachable [parisRaw] parisRaw (by decide)⟩

/-- Claim C9: the 99.5th-percentile outlier trim preserves
non-emptiness: the interpolated quantile is at least the minimum of the
values, so a row attaining the minimum adoption rate always survives. -/
theorem outlier_trim_preserves_nonempty :
    ∀ rs : List Row, rs ≠ [] → outlier_trim rs ≠ [] :=
  outlier_trim_ne_nil

theorem outlier_trim_preserves_nonempty_witness :
    ([parisRaw] : List Row) ≠ [] ∧ outlier_trim [parisRaw] ≠ [] :=
  ⟨by decide, outlier_trim_preserves_nonempty [parisRaw] (by decide)⟩

/-- Claim C10: `get_departement_code` is extensionally the first two
characters of its (stringified) input: the branch special-casing the
Corsican prefixes "2A"/"2B" returns exactly what the default branch
returns, so the conditional is behaviorally redundant. -/
theorem corsican_branch_redundant :
    ∀ codgeo : String, get_departement_code codgeo = pyTake codgeo 2 :=
  get_departement_code_take

end DataViz
